import Mathlib

/-!
Shallow embedding of `Medical_Symptom_Chatbot/pipeline.py` (class `MedicalChatbot`)
and proofs about it.

Modelling conventions:
* Python strings are modelled as `List Char` (`Str`).  `str.lower()` is
  `List.map Char.toLower`, `str.strip()` is `trimS`, `needle in hay` is
  `hasSub needle hay`, and `s.split(sep)[-1]` is `lastChunk sep s`.
* A pandas row is an association list `Row` from field names to string values;
  a missing/NaN field is an absent key (`row.get(k, d)` is `rowGet row k d`,
  and `.str.contains(q, na=False)` on a missing value is `false`).
* Embedding vectors are `List ℚ` (exact arithmetic in place of floats); the
  cosine score `np.dot(a,b)/(norm a * norm b)` is the real number `cosineSim`.
  Python's float comparison of two scores is modelled by the exact boolean
  comparison `cosGE`, proved below (`cosGE_iff`) to agree with the real
  cosine order whenever the squared norms are positive.
* Python's `list.sort(key=..., reverse=True)` is a stable descending sort;
  any stable sort by a total preorder computes the same list, so it is
  modelled by `List.insertionSort` (stable) with the `cosGE` comparison.
* The external providers are parameters: `EmbedFn` for
  `genai.embed_content` (returning the embedding or raising) and `GenFn` for
  `GEN_MODEL.generate_content` (returning `response.text`, where `.ok []`
  models an empty/absent text and `.error e` a raised exception).
-/

/-- Python strings, modelled as lists of characters. -/
abbrev Str := List Char

/-- Coerces a Lean string literal into the `Str` model. -/
def chars (s : String) : Str := s.toList

/-- Python `str.lower()` (the source only ever lower-cases ASCII keywords). -/
def toLowerS (s : Str) : Str := s.map Char.toLower

/-- Python `str.upper()`, used by `format_drug_response`. -/
def toUpperS (s : Str) : Str := s.map Char.toUpper

/-- Tests whether `pat` is a prefix of `s`. -/
def startsWithS : Str → Str → Bool
  | [], _ => true
  | _ :: _, [] => false
  | p :: ps, c :: cs => if p = c then startsWithS ps cs else false

/-- Python `pat in s` — substring test. -/
def hasSub (pat : Str) : Str → Bool
  | [] => startsWithS pat []
  | c :: cs => startsWithS pat (c :: cs) || hasSub pat cs

/-- Python `str.strip()`: removes leading and trailing whitespace. -/
def trimS (s : Str) : Str :=
  ((s.dropWhile Char.isWhitespace).reverse.dropWhile Char.isWhitespace).reverse

/-- Text after the first occurrence of `sep` in `s` (`none` if `sep` does not
occur, or if `sep` is empty — the source never splits on an empty keyword). -/
def afterFirst (sep : Str) : Str → Option Str
  | [] => none
  | c :: cs =>
    if sep = [] then none
    else if startsWithS sep (c :: cs) then some (List.drop sep.length (c :: cs))
    else afterFirst sep cs

/-- Python `s.split(sep)[-1]`: the final split chunk, i.e. the result of
repeatedly jumping past the first occurrence of `sep`.  The fuel argument is
`s.length`, which suffices because every step strictly shortens the string
(`afterFirst_length_lt` below); the fuel only makes the recursion structural. -/
def lastChunkF (sep : Str) : Nat → Str → Str
  | 0, s => s
  | fuel + 1, s =>
    match afterFirst sep s with
    | none => s
    | some t => lastChunkF sep fuel t

/-- Python `s.split(sep)[-1]`. -/
def lastChunk (sep s : Str) : Str := lastChunkF sep s.length s

/-- Association-list lookup by key (first binding wins), used for pandas rows
and for the `self.data` dictionary. -/
def assocGet {β : Type} : List (Str × β) → Str → Option β
  | [], _ => none
  | (k, v) :: rest, key => if k = key then some v else assocGet rest key

/-- A pandas row: field name to string value; a missing/NaN field is absent. -/
abbrev Row := List (Str × Str)

/-- Field access on a row. -/
def getField (row : Row) (key : Str) : Option Str := assocGet row key

/-- Python `row.get(key, dflt)`. -/
def rowGet (row : Row) (key : Str) (dflt : Str) : Str := (getField row key).getD dflt

/-- Stand-in for Python `str(row.to_dict())`, reached by `row_to_text` for an
unknown `data_type` (its exact text is irrelevant to every claim: the four
known kinds never reach it). -/
def rowToDictText (row : Row) : Str :=
  chars "\x7b" ++
    List.intercalate (chars ", ") (row.map (fun kv => kv.1 ++ chars ": " ++ kv.2)) ++
    chars "\x7d"

/-- Model of `MedicalChatbot.row_to_text(row, data_type)` (pipeline.py 99-115). -/
def row_to_text (row : Row) (dataType : Str) : Str :=
  if dataType = chars "conditions" then
    chars "Condition: " ++ rowGet row (chars "name") [] ++
    chars " | Symptoms: " ++ rowGet row (chars "symptoms") [] ++
    chars " | Treatment: " ++ rowGet row (chars "treatment") [] ++
    chars " | Prevention: " ++ rowGet row (chars "prevention") []
  else if dataType = chars "drugs" then
    chars "Drug: " ++ rowGet row (chars "drug_name") [] ++
    chars " | Class: " ++ rowGet row (chars "drug_class") [] ++
    chars " | Uses: " ++ rowGet row (chars "uses") [] ++
    chars " | Side Effects: " ++ rowGet row (chars "side_effects") [] ++
    chars " | Contraindications: " ++ rowGet row (chars "contraindications") []
  else if dataType = chars "symptoms" then
    chars "Symptom: " ++ rowGet row (chars "name") [] ++
    chars " | Possible Conditions: " ++ rowGet row (chars "possible_conditions") [] ++
    chars " | Severity: " ++ rowGet row (chars "severity") [] ++
    chars " | When to See Doctor: " ++ rowGet row (chars "when_to_see_doctor") []
  else if dataType = chars "solutions" then
    chars "Problem: " ++ rowGet row (chars "problem") [] ++
    chars " | Solution: " ++ rowGet row (chars "solution") [] ++
    chars " | Steps: " ++ rowGet row (chars "steps") [] ++
    chars " | Precautions: " ++ rowGet row (chars "precautions") []
  else rowToDictText row

/-- Keyword list for the medication category (pipeline.py 283-284). -/
def medication_keywords : List Str :=
  [chars "medicine", chars "medication", chars "drug", chars "pill", chars "tablet",
   chars "dose", chars "dosage", chars "side effect", chars "prescription",
   chars "ibuprofen", chars "aspirin", chars "paracetamol"]

/-- Keyword list for the condition category (pipeline.py 286-287). -/
def condition_keywords : List Str :=
  [chars "symptom", chars "condition", chars "disease", chars "illness",
   chars "diagnosis", chars "treatment", chars "what is", chars "have",
   chars "suffering from", chars "cancer", chars "diabetes", chars "asthma"]

/-- Keyword list for the symptom category (pipeline.py 289-290). -/
def symptom_keywords : List Str :=
  [chars "pain", chars "headache", chars "fever", chars "cough", chars "nausea",
   chars "vomiting", chars "dizziness", chars "rash", chars "swelling",
   chars "bleeding", chars "shortness of breath"]

/-- Model of `MedicalChatbot.detect_query_type` (pipeline.py 280-299). -/
def detect_query_type (query : Str) : Str :=
  let low := toLowerS query
  if medication_keywords.any (fun k => hasSub k low) then chars "medication"
  else if condition_keywords.any (fun k => hasSub k low) then chars "condition"
  else if symptom_keywords.any (fun k => hasSub k low) then chars "symptom"
  else chars "general"

/-- Model of `MedicalChatbot.extract_entity` (pipeline.py 348-353):
scan the keywords in order; on the first one contained in the lower-cased
query, return `query_lower.split(keyword)[-1].strip()`; otherwise return the
query unchanged. -/
def extract_entity (query : Str) (keywords : List Str) : Str :=
  let low := toLowerS query
  match keywords.find? (fun k => hasSub k low) with
  | some k => trimS (lastChunk k low)
  | none => query

/-- Dot product of two vectors (`np.dot`); trailing entries beyond the shorter
vector are ignored (the index invariant keeps dimensions uniform). -/
def dotP (a b : List ℚ) : ℚ := (List.zipWith (· * ·) a b).sum

/-- Squared euclidean norm, `np.linalg.norm a ^ 2`. -/
def normSq (a : List ℚ) : ℚ := dotP a a

/-- Cosine similarity `np.dot(a,b) / (np.linalg.norm a * np.linalg.norm b)`
(pipeline.py 128-130), as a real number. -/
noncomputable def cosineSim (a b : List ℚ) : ℝ :=
  (dotP a b : ℝ) / (Real.sqrt (normSq a) * Real.sqrt (normSq b))

/-- Exact boolean comparison deciding `cosineSim q b ≤ cosineSim q a` without
square roots (by cross-multiplying and comparing squares, with sign analysis);
`cosGE_iff` below proves the agreement when the squared norms are positive. -/
def cosGE (q a b : List ℚ) : Bool :=
  let da := dotP q a
  let db := dotP q b
  let na := normSq a
  let nb := normSq b
  if 0 ≤ da then
    if 0 ≤ db then decide (db * db * na ≤ da * da * nb) else true
  else
    if 0 ≤ db then false else decide (da * da * nb ≤ db * db * na)

/-- One entry of the semantic index (pipeline.py 85-90). -/
structure IndexEntry where
  kind : Str
  data : Row
  text : Str
  embedding : List ℚ
deriving DecidableEq

/-- The embedding provider `genai.embed_content(model=EMBED_MODEL, content=t)`:
returns the embedding vector, or raises (`.error`). -/
abbrev EmbedFn := Str → Except Str (List ℚ)

/-- The generation provider `GEN_MODEL.generate_content(prompt)`: returns
`response.text` (where `.ok []` models an empty or absent text), or raises. -/
abbrev GenFn := Str → Except Str Str

/-- The per-document loop body of `build_semantic_index` (pipeline.py 77-90),
sequenced in the exception monad: the Python `try` is around the WHOLE loop,
so the first raising `embed_content` call aborts everything. -/
def buildAll (embed : EmbedFn) : List (Str × Row) → Except Str (List IndexEntry)
  | [] => .ok []
  | (k, r) :: rest =>
    let text := row_to_text r k
    if text = [] then buildAll embed rest
    else
      match embed text with
      | .error e => .error e
      | .ok v =>
        (buildAll embed rest).map
          (fun l => { kind := k, data := r, text := text, embedding := v } :: l)

/-- Model of `MedicalChatbot.build_semantic_index` (pipeline.py 74-94):
iterate over all rows of all collections of `self.data`; on any exception
print a warning and return the empty index. -/
def build_semantic_index (embed : EmbedFn) (data : List (Str × List Row)) :
    List IndexEntry :=
  match buildAll embed (data.flatMap (fun p => p.2.map (fun r => (p.1, r)))) with
  | .ok l => l
  | .error _ => []

/-- Model of `MedicalChatbot.semantic_search` (pipeline.py 120-136): empty
index short-circuits to `[]`; an embedding exception is caught and yields `[]`;
otherwise score every entry by cosine similarity against the query embedding,
sort descending (stably — Python `sort(key=..., reverse=True)`, modelled by the
stable `List.insertionSort`) and return the first `topK` entries. -/
def semantic_search (embed : EmbedFn) (query : Str) (index : List IndexEntry)
    (topK : Nat) : List IndexEntry :=
  if index = [] then []
  else
    match embed query with
    | .error _ => []
    | .ok q =>
      (List.insertionSort (fun a b => cosGE q a.embedding b.embedding = true) index).take topK

/-- Matcher for the fragment of Python regex syntax consisting of literal
characters and the `.` wildcard (which matches any one character): does the
pattern match a prefix of the text?  This fragment suffices for every
statement below; patterns using the other metacharacters (some of which make
`re` raise, e.g. an unbalanced parenthesis) are outside the model and outside
every theorem about these predicates. -/
def reMatchHere : Str → Str → Bool
  | [], _ => true
  | _ :: _, [] => false
  | p :: ps, c :: cs =>
    if p = '.' then reMatchHere ps cs
    else if p = c then reMatchHere ps cs
    else false

/-- Python `re.search` for the dot-and-literals fragment: does the pattern
match starting at some position of the text? -/
def reSearch (pat : Str) : Str → Bool
  | [] => reMatchHere pat []
  | c :: cs => reMatchHere pat (c :: cs) || reSearch pat cs

/-- The row predicate of `get_condition_info` and `get_symptom_info`
(pipeline.py 146, 178): `df['name'].str.lower().str.contains(q_lower, na=False)`.
pandas interprets the lower-cased query as a regular expression (`regex=True`
is the default), modelled by `reSearch`; for queries free of regex
metacharacters this is substring containment (`reSearch_eq_hasSub` below). -/
def nameMatches (q : Str) (row : Row) : Bool :=
  match getField row (chars "name") with
  | some n => reSearch (toLowerS q) (toLowerS n)
  | none => false

/-- The row predicate of `get_drug_info` (pipeline.py 161-164): regex match of
the lower-cased query in the `drug_name` or the `brand_names` column. -/
def drugMatches (q : Str) (row : Row) : Bool :=
  (match getField row (chars "drug_name") with
   | some n => reSearch (toLowerS q) (toLowerS n)
   | none => false) ||
  (match getField row (chars "brand_names") with
   | some n => reSearch (toLowerS q) (toLowerS n)
   | none => false)

/-- The fixed footer appended by all three database formatters. -/
def footerLine : Str := chars "*Information from medical database*"

/-- Model of `MedicalChatbot.format_condition_response` (pipeline.py 189-197). -/
def format_condition_response (row : Row) : Str :=
  chars "**ü©∫ " ++ rowGet row (chars "name") (chars "Condition") ++ chars "**\n\n" ++
  chars "**Description:** " ++ rowGet row (chars "description") (chars "N/A") ++ chars "\n\n" ++
  chars "**Common Symptoms:** " ++ rowGet row (chars "symptoms") (chars "N/A") ++ chars "\n\n" ++
  chars "**Treatment Options:** " ++ rowGet row (chars "treatment") (chars "N/A") ++ chars "\n\n" ++
  chars "**Prevention:** " ++ rowGet row (chars "prevention") (chars "N/A") ++ chars "\n\n" ++
  chars "**When to See a Doctor:** " ++ rowGet row (chars "when_to_see_doctor") (chars "N/A") ++ chars "\n\n" ++
  chars "---\n*Information from medical database*"

/-- Model of `MedicalChatbot.format_drug_response` (pipeline.py 199-209). -/
def format_drug_response (row : Row) : Str :=
  chars "**üíä " ++ toUpperS (rowGet row (chars "drug_name") (chars "Medication")) ++ chars "**\n\n" ++
  chars "**Drug Class:** " ++ rowGet row (chars "drug_class") (chars "N/A") ++ chars "\n\n" ++
  chars "**Primary Uses:** " ++ rowGet row (chars "uses") (chars "N/A") ++ chars "\n\n" ++
  chars "**Common Side Effects:** " ++ rowGet row (chars "side_effects") (chars "N/A") ++ chars "\n\n" ++
  chars "**Contraindications:** " ++ rowGet row (chars "contraindications") (chars "N/A") ++ chars "\n\n" ++
  chars "**Important Precautions:** " ++ rowGet row (chars "precautions") (chars "N/A") ++ chars "\n\n" ++
  chars "**Available Forms:** " ++ rowGet row (chars "dosage_forms") (chars "N/A") ++ chars "\n\n" ++
  chars "**Brand Names:** " ++ rowGet row (chars "brand_names") (chars "N/A") ++ chars "\n\n" ++
  chars "---\n*Information from medical database*"

/-- Model of `MedicalChatbot.format_symptom_response` (pipeline.py 211-218). -/
def format_symptom_response (row : Row) : Str :=
  chars "**üîç " ++ rowGet row (chars "name") (chars "Symptom") ++ chars "**\n\n" ++
  chars "**Description:** " ++ rowGet row (chars "description") (chars "N/A") ++ chars "\n\n" ++
  chars "**Possible Conditions:** " ++ rowGet row (chars "possible_conditions") (chars "N/A") ++ chars "\n\n" ++
  chars "**Severity Level:** " ++ rowGet row (chars "severity") (chars "N/A") ++ chars "\n\n" ++
  chars "**When to Seek Help:** " ++ rowGet row (chars "when_to_see_doctor") (chars "N/A") ++ chars "\n\n" ++
  chars "---\n*Information from medical database*"

/-- The prompt of `generate_condition_info` (pipeline.py 225-235). -/
def condPrompt (name : Str) : Str :=
  chars "\nProvide concise, accurate information about the medical condition: " ++ name ++
  chars "\n\nStructure with:\n- Brief description\n- Common symptoms\n- General treatment approaches\n- When to see a doctor\n\nInclude safety disclaimers and emphasize consulting healthcare professionals.\n"

/-- The prompt of `generate_drug_info` (pipeline.py 243-253). -/
def drugPrompt (name : Str) : Str :=
  chars "\nProvide concise, accurate information about the medication: " ++ name ++
  chars "\n\nStructure with:\n- Common uses\n- Typical dosage guidelines\n- Side effects\n- Precautions\n\nInclude strong warnings to consult doctors before taking any medication.\n"

/-- The prompt of `generate_symptom_info` (pipeline.py 261-271). -/
def symptomPrompt (name : Str) : Str :=
  chars "\nProvide concise, accurate information about the symptom: " ++ name ++
  chars "\n\nStructure with:\n- Description\n- Possible causes\n- When to seek medical attention\n- General self-care tips\n\nInclude emergency warnings for serious symptoms.\n"

/-- The prompt of the general fallback in `generate_smart_response`
(pipeline.py 337-342). -/
def generalPrompt (query : Str) : Str :=
  chars "\nAnswer this medical question: \"" ++ query ++
  chars "\"\n\nProvide accurate, helpful information with appropriate safety disclaimers.\nAlways recommend consulting healthcare professionals for personal medical advice.\n"

/-- Model of `MedicalChatbot.generate_condition_info` (pipeline.py 223-239). -/
def generate_condition_info (gen : GenFn) (name : Str) : Str :=
  match gen (condPrompt name) with
  | .ok t =>
    if t = [] then chars "Could not find information about " ++ name ++ chars "."
    else trimS t
  | .error e => chars "Error retrieving condition information: " ++ e

/-- Model of `MedicalChatbot.generate_drug_info` (pipeline.py 241-257). -/
def generate_drug_info (gen : GenFn) (name : Str) : Str :=
  match gen (drugPrompt name) with
  | .ok t =>
    if t = [] then chars "Could not find information about " ++ name ++ chars "."
    else trimS t
  | .error e => chars "Error retrieving drug information: " ++ e

/-- Model of `MedicalChatbot.generate_symptom_info` (pipeline.py 259-275). -/
def generate_symptom_info (gen : GenFn) (name : Str) : Str :=
  match gen (symptomPrompt name) with
  | .ok t =>
    if t = [] then chars "Could not find information about " ++ name ++ chars "."
    else trimS t
  | .error e => chars "Error retrieving symptom information: " ++ e

/-- The Gemini fallback at the end of `generate_smart_response`
(pipeline.py 336-346). -/
def generalFallback (gen : GenFn) (query : Str) : Str :=
  match gen (generalPrompt query) with
  | .ok t =>
    if t = [] then chars "I couldn\x27t generate a response for that question."
    else trimS t
  | .error e => chars "Error generating response: " ++ e

/-- Model of `MedicalChatbot.get_condition_info` (pipeline.py 141-152):
first row whose lower-cased `name` contains the lower-cased query, else the
Gemini fallback.  `conditions` is `self.data.get('conditions')`. -/
def get_condition_info (gen : GenFn) (conditions : Option (List Row)) (name : Str) : Str :=
  match conditions with
  | some rows =>
    match rows.find? (fun r => nameMatches name r) with
    | some row => format_condition_response row
    | none => generate_condition_info gen name
  | none => generate_condition_info gen name

/-- Model of `MedicalChatbot.get_drug_info` (pipeline.py 154-171). -/
def get_drug_info (gen : GenFn) (drugs : Option (List Row)) (name : Str) : Str :=
  match drugs with
  | some rows =>
    match rows.find? (fun r => drugMatches name r) with
    | some row => format_drug_response row
    | none => generate_drug_info gen name
  | none => generate_drug_info gen name

/-- Model of `MedicalChatbot.get_symptom_info` (pipeline.py 173-184). -/
def get_symptom_info (gen : GenFn) (symptoms : Option (List Row)) (name : Str) : Str :=
  match symptoms with
  | some rows =>
    match rows.find? (fun r => nameMatches name r) with
    | some row => format_symptom_response row
    | none => generate_symptom_info gen name
  | none => generate_symptom_info gen name

/-- The keyword list passed to `extract_entity` by `generate_smart_response`
(pipeline.py 309, 314, 319). -/
def entity_keywords : List Str :=
  [chars "about", chars "information on", chars "tell me about"]

/-- Model of `MedicalChatbot.generate_smart_response` (pipeline.py 304-346).
`data` is the `self.data` dictionary, `index` is `self.index`.  On the general
path the top search result is used WHENEVER the result list is nonempty and its
kind is one of the three formatted kinds; no similarity threshold is consulted. -/
def generate_smart_response (embed : EmbedFn) (gen : GenFn)
    (data : List (Str × List Row)) (index : List IndexEntry) (query : Str) : Str :=
  let qt := detect_query_type query
  if qt = chars "medication" then
    let name := extract_entity query entity_keywords
    get_drug_info gen (assocGet data (chars "drugs")) (if name = [] then query else name)
  else if qt = chars "condition" then
    let name := extract_entity query entity_keywords
    get_condition_info gen (assocGet data (chars "conditions")) (if name = [] then query else name)
  else if qt = chars "symptom" then
    let name := extract_entity query entity_keywords
    get_symptom_info gen (assocGet data (chars "symptoms")) (if name = [] then query else name)
  else
    match semantic_search embed query index 3 with
    | best :: _ =>
      if best.kind = chars "conditions" then format_condition_response best.data
      else if best.kind = chars "drugs" then format_drug_response best.data
      else if best.kind = chars "symptoms" then format_symptom_response best.data
      else generalFallback gen query
    | [] => generalFallback gen query

/-- Reference ranking following the spec's words for C4: stable descending
sort of the index by real cosine similarity against the query vector
(`List.insertionSort` is a stable sort; ties keep original corpus order). -/
noncomputable def rankSpec (q : List ℚ) (index : List IndexEntry) : List IndexEntry :=
  @List.insertionSort IndexEntry
    (fun a b => cosineSim q b.embedding ≤ cosineSim q a.embedding)
    (fun _ _ => Classical.propDecidable _) index

/-- Reference definition following the claim C5's words: the suffix of `s`
after the LAST occurrence (any starting position) of `k`, scanning all
positions. -/
def suffixAfterLastOcc (k s : Str) : Option Str :=
  ((List.range (s.length + 1)).filterMap
    (fun i => if startsWithS k (s.drop i) then some (s.drop (i + k.length)) else none)).getLast?

/-- Reference entity extractor following the claim C5's words: on the first
keyword contained in the lower-cased query, return everything after that
keyword's last occurrence, trimmed; otherwise the query unchanged. -/
def extractByLastOccurrence (query : Str) (keywords : List Str) : Str :=
  let low := toLowerS query
  match keywords.find? (fun k => hasSub k low) with
  | some k =>
    match suffixAfterLastOcc k low with
    | some r => trimS r
    | none => query
  | none => query

/-- Concrete two-row conditions corpus for the C1 counterexample. -/
def rowA : Row := [(chars "name", chars "Asthma")]

/-- Second row of the C1 corpus. -/
def rowB : Row := [(chars "name", chars "Bronchitis")]

/-- Concrete `self.data` for the C1 counterexample. -/
def dataC1 : List (Str × List Row) := [(chars "conditions", [rowA, rowB])]

/-- Embedding provider that fails on `rowA`'s document but succeeds on
`rowB`'s (C1 counterexample). -/
def embedC1 : EmbedFn :=
  fun t => if t = row_to_text rowB (chars "conditions") then .ok [1] else .error (chars "rate limit")

/-- Embedding provider returning the fixed vector `[1, 0]` (C2). -/
def embedC2 : EmbedFn := fun _ => .ok [1, 0]

/-- Generation provider returning a fixed answer (C2). -/
def genC2 : GenFn := fun _ => .ok (chars "external model answer")

/-- Single index entry whose embedding is orthogonal to the C2 query
embedding: its cosine score is 0, below the claimed 0.3 threshold. -/
def entryC2 : IndexEntry :=
  { kind := chars "conditions", data := [], text := chars "doc", embedding := [0, 1] }

/-- Generation provider returning a short fixed text (C10 witness). -/
def genW : GenFn := fun _ => .ok (chars "hello")

/-- Embedding provider for the C4 witness. -/
def embedW : EmbedFn := fun _ => .ok [1, 0]

/-- First index entry for the C4 witness. -/
def entryW1 : IndexEntry :=
  { kind := chars "conditions", data := [], text := chars "a", embedding := [1, 0] }

/-- Second index entry for the C4 witness. -/
def entryW2 : IndexEntry :=
  { kind := chars "drugs", data := [], text := chars "b", embedding := [0, 1] }

lemma startsWithS_iff (pat : Str) : ∀ s : Str, startsWithS pat s = true ↔ ∃ t, pat ++ t = s := by
  induction pat with
  | nil =>
    intro s
    simp [startsWithS]
  | cons p ps ih =>
    intro s
    cases s with
    | nil =>
      simp [startsWithS]
    | cons c cs =>
      constructor
      · intro h
        rw [startsWithS] at h
        split_ifs at h with hpc
        · obtain ⟨t, ht⟩ := (ih cs).mp h
          exact ⟨t, by simp [hpc, ht]⟩
      · rintro ⟨t, ht⟩
        obtain ⟨hpc, hrest⟩ := List.cons.injEq .. ▸ ht
        rw [startsWithS, if_pos hpc]
        exact (ih cs).mpr ⟨t, hrest⟩

lemma afterFirst_length_lt (sep : Str) : ∀ s t : Str, afterFirst sep s = some t → t.length < s.length := by
  intro s
  induction s with
  | nil => intro t h; simp [afterFirst] at h
  | cons c cs ih =>
    intro t h
    rw [afterFirst] at h
    split_ifs at h with hsep hpre
    · obtain rfl : List.drop sep.length (c :: cs) = t := by
        simpa using h
      have hlen : 0 < sep.length := List.length_pos.mpr hsep
      simp only [List.length_drop, List.length_cons]
      omega
    · exact Nat.lt_trans (ih t h) (by simp)

lemma afterFirst_some_decomp (sep : Str) :
    ∀ s t : Str, afterFirst sep s = some t → ∃ p, p ++ sep ++ t = s := by
  intro s
  induction s with
  | nil => intro t h; simp [afterFirst] at h
  | cons c cs ih =>
    intro t h
    rw [afterFirst] at h
    split_ifs at h with hsep hpre
    · obtain ⟨u, hu⟩ := (startsWithS_iff sep (c :: cs)).mp hpre
      obtain rfl : List.drop sep.length (c :: cs) = t := by simpa using h
      refine ⟨[], ?_⟩
      rw [← hu, List.drop_left]
      simp
    · obtain ⟨p, hp⟩ := ih t h
      exact ⟨c :: p, by simp [← hp]⟩

lemma afterFirst_eq_none_iff (sep : Str) (hsep : sep ≠ []) :
    ∀ s : Str, afterFirst sep s = none ↔ hasSub sep s = false := by
  intro s
  induction s with
  | nil =>
    simp only [afterFirst, hasSub, true_iff]
    cases sep with
    | nil => exact absurd rfl hsep
    | cons p ps => simp [startsWithS]
  | cons c cs ih =>
    rw [afterFirst, hasSub, if_neg hsep]
    split_ifs with hpre
    · simp [hpre]
    · simp [hpre, ih]

lemma lastChunkF_of_none (sep : Str) (t : Str) (h : afterFirst sep t = none) :
    ∀ fuel, lastChunkF sep fuel t = t := by
  intro fuel
  cases fuel with
  | zero => rfl
  | succ n => rw [lastChunkF, h]

lemma lastChunkF_spec (sep : Str) (hsep : sep ≠ []) :
    ∀ (fuel : Nat) (s : Str), s.length ≤ fuel → hasSub sep s = true →
      ∃ p r, p ++ sep ++ r = s ∧ hasSub sep r = false ∧ lastChunkF sep fuel s = r := by
  intro fuel
  induction fuel with
  | zero =>
    intro s hlen hs
    obtain rfl : s = [] := List.eq_nil_of_length_eq_zero (Nat.le_zero.mp hlen)
    rw [hasSub] at hs
    cases sep with
    | nil => exact absurd rfl hsep
    | cons p ps => simp [startsWithS] at hs
  | succ n ih =>
    intro s hlen hs
    rw [lastChunkF]
    cases h : afterFirst sep s with
    | none =>
      rw [afterFirst_eq_none_iff sep hsep] at h
      rw [h] at hs
      exact absurd hs (by simp)
    | some t =>
      obtain ⟨p, hp⟩ := afterFirst_some_decomp sep s t h
      have htlen : t.length ≤ n := by
        have := afterFirst_length_lt sep s t h
        omega
      cases hst : hasSub sep t with
      | true =>
        obtain ⟨p', r, h1, h2, h3⟩ := ih t htlen hst
        refine ⟨p ++ sep ++ p', r, ?_, h2, h3⟩
        rw [← hp, ← h1]
        simp
      | false =>
        refine ⟨p, t, hp, hst, ?_⟩
        exact lastChunkF_of_none sep t ((afterFirst_eq_none_iff sep hsep t).mpr hst) n

lemma lastChunk_spec (sep s : Str) (hsep : sep ≠ []) (hs : hasSub sep s = true) :
    ∃ p r, p ++ sep ++ r = s ∧ hasSub sep r = false ∧ lastChunk sep s = r :=
  lastChunkF_spec sep hsep s.length s le_rfl hs

/-- C5 counterexample: for the query `"aaa"` and keyword list `["aa"]`, the
code (Python `split`) returns `"a"`, but "everything after the keyword's last
occurrence" (the keyword also occurs at position 1) is the empty string, so
the claim's description is false at this input — and so is its "never empty"
parenthetical, under either reading. -/
theorem extract_entity_not_after_last_occurrence :
    extract_entity (chars "aaa") [chars "aa"] = chars "a" ∧
    extractByLastOccurrence (chars "aaa") [chars "aa"] = [] ∧
    extract_entity (chars "aaa") [chars "aa"] ≠ extractByLastOccurrence (chars "aaa") [chars "aa"] := by
  refine ⟨by decide, by decide, by decide⟩

/-- C5 (amended): for every query and keyword list of nonempty keywords, the
extractor scans the keywords in order; if none is contained in the lower-cased
query the query is returned unchanged; on the first contained keyword `k` it
returns the final `split` chunk trimmed, i.e. the part of the lower-cased query
after the last left-to-right non-overlapping match of `k` — a suffix `r` with
`p ++ k ++ r = lower(query)` containing no further complete occurrence of `k`.
In particular extract("tell me about amoxicillin", ["about"]) = "amoxicillin"
and extract("amoxicillin info", ["about"]) = "amoxicillin info". -/
theorem extract_entity_split_semantics :
    (∀ (q : Str) (ks : List Str),
      (∀ k ∈ ks, hasSub k (toLowerS q) = false) → extract_entity q ks = q) ∧
    (∀ (q : Str) (ks : List Str) (k : Str), k ≠ [] →
      ks.find? (fun k₀ => hasSub k₀ (toLowerS q)) = some k →
      ∃ p r, p ++ k ++ r = toLowerS q ∧ hasSub k r = false ∧
        extract_entity q ks = trimS r) ∧
    extract_entity (chars "tell me about amoxicillin") [chars "about"] = chars "amoxicillin" ∧
    extract_entity (chars "amoxicillin info") [chars "about"] = chars "amoxicillin info" := by
  refine ⟨?_, ?_, by decide, by decide⟩
  · intro q ks hnone
    rw [extract_entity]
    have : ks.find? (fun k₀ => hasSub k₀ (toLowerS q)) = none :=
      List.find?_eq_none.mpr (by intro k hk; simp [hnone k hk])
    rw [this]
  · intro q ks k hk hfind
    have hsub : hasSub k (toLowerS q) = true := by
      have := List.find?_some hfind
      simpa using this
    obtain ⟨p, r, h1, h2, h3⟩ := lastChunk_spec k (toLowerS q) hk hsub
    refine ⟨p, r, h1, h2, ?_⟩
    rw [extract_entity, hfind]
    exact congrArg trimS h3

/-- Witness for `extract_entity_split_semantics` at concrete inputs. -/
theorem extract_entity_split_semantics_witness :
    extract_entity (chars "xy") [chars "about"] = chars "xy" ∧
    ∃ p r, p ++ chars "about" ++ r = toLowerS (chars "tell me about amoxicillin") ∧
      hasSub (chars "about") r = false ∧
      extract_entity (chars "tell me about amoxicillin") [chars "about"] = trimS r :=
  ⟨extract_entity_split_semantics.1 (chars "xy") [chars "about"] (by decide),
   extract_entity_split_semantics.2.1 (chars "tell me about amoxicillin") [chars "about"]
     (chars "about") (by decide) (by decide)⟩

/-- C7: semantic search over an empty index returns the empty list (and, being
a total function, raises nothing): pipeline.py 122-123 short-circuits before
any provider call. -/
theorem semantic_search_empty_index (embed : EmbedFn) (q : Str) (k : Nat) :
    semantic_search embed q [] k = [] := rfl

/-- C3: the intent classifier lower-cases the input, checks the keyword lists
in the fixed priority order medication → condition → symptom, falls through to
general, always returns one of the five categories named by the spec (the code
never produces "emergency", so membership holds in the listed five), and
classifies the two example queries as stated. -/
theorem detect_query_type_spec :
    (∀ q : Str, detect_query_type q ∈
      [chars "medication", chars "condition", chars "symptom", chars "emergency", chars "general"]) ∧
    (∀ q : Str, (∃ k ∈ medication_keywords, hasSub k (toLowerS q) = true) →
      detect_query_type q = chars "medication") ∧
    (∀ q : Str, (∀ k ∈ medication_keywords, hasSub k (toLowerS q) = false) →
      (∃ k ∈ condition_keywords, hasSub k (toLowerS q) = true) →
      detect_query_type q = chars "condition") ∧
    (∀ q : Str, (∀ k ∈ medication_keywords, hasSub k (toLowerS q) = false) →
      (∀ k ∈ condition_keywords, hasSub k (toLowerS q) = false) →
      (∃ k ∈ symptom_keywords, hasSub k (toLowerS q) = true) →
      detect_query_type q = chars "symptom") ∧
    (∀ q : Str, (∀ k ∈ medication_keywords, hasSub k (toLowerS q) = false) →
      (∀ k ∈ condition_keywords, hasSub k (toLowerS q) = false) →
      (∀ k ∈ symptom_keywords, hasSub k (toLowerS q) = false) →
      detect_query_type q = chars "general") ∧
    detect_query_type (chars "ibuprofen dosage") = chars "medication" ∧
    detect_query_type (chars "what is diabetes") = chars "condition" := by
  refine ⟨?_, ?_, ?_, ?_, ?_, by decide, by decide⟩
  · intro q
    rw [detect_query_type]
    split_ifs <;> decide
  · rintro q ⟨k, hk, hs⟩
    have hmed : medication_keywords.any (fun k => hasSub k (toLowerS q)) = true :=
      List.any_eq_true.mpr ⟨k, hk, hs⟩
    simp [detect_query_type, hmed]
  · rintro q hmed ⟨k, hk, hs⟩
    have h1 : medication_keywords.any (fun k => hasSub k (toLowerS q)) = false :=
      List.any_eq_false.mpr (fun k hk => by simp [hmed k hk])
    have h2 : condition_keywords.any (fun k => hasSub k (toLowerS q)) = true :=
      List.any_eq_true.mpr ⟨k, hk, hs⟩
    simp [detect_query_type, h1, h2]
  · rintro q hmed hcond ⟨k, hk, hs⟩
    have h1 : medication_keywords.any (fun k => hasSub k (toLowerS q)) = false :=
      List.any_eq_false.mpr (fun k hk => by simp [hmed k hk])
    have h2 : condition_keywords.any (fun k => hasSub k (toLowerS q)) = false :=
      List.any_eq_false.mpr (fun k hk => by simp [hcond k hk])
    have h3 : symptom_keywords.any (fun k => hasSub k (toLowerS q)) = true :=
      List.any_eq_true.mpr ⟨k, hk, hs⟩
    simp [detect_query_type, h1, h2, h3]
  · rintro q hmed hcond hsym
    have h1 : medication_keywords.any (fun k => hasSub k (toLowerS q)) = false :=
      List.any_eq_false.mpr (fun k hk => by simp [hmed k hk])
    have h2 : condition_keywords.any (fun k => hasSub k (toLowerS q)) = false :=
      List.any_eq_false.mpr (fun k hk => by simp [hcond k hk])
    have h3 : symptom_keywords.any (fun k => hasSub k (toLowerS q)) = false :=
      List.any_eq_false.mpr (fun k hk => by simp [hsym k hk])
    simp [detect_query_type, h1, h2, h3]

/-- Witness for `detect_query_type_spec`, exercising all four priority cases. -/
theorem detect_query_type_spec_witness :
    detect_query_type (chars "drug") = chars "medication" ∧
    detect_query_type (chars "what is diabetes") = chars "condition" ∧
    detect_query_type (chars "fever") = chars "symptom" ∧
    detect_query_type (chars "hi") = chars "general" :=
  ⟨detect_query_type_spec.2.1 _ ⟨chars "drug", by decide, by decide⟩,
   detect_query_type_spec.2.2.1 _ (by decide) ⟨chars "what is", by decide, by decide⟩,
   detect_query_type_spec.2.2.2.1 _ (by decide) (by decide) ⟨chars "fever", by decide, by decide⟩,
   detect_query_type_spec.2.2.2.2.1 _ (by decide) (by decide) (by decide)⟩

lemma assocGet_append_of_some {β : Type} (l₁ l₂ : List (Str × β)) (k : Str) (v : β)
    (h : assocGet l₁ k = some v) : assocGet (l₁ ++ l₂) k = some v := by
  induction l₁ with
  | nil => simp [assocGet] at h
  | cons a rest ih =>
    obtain ⟨ka, va⟩ := a
    rw [assocGet] at h
    rw [List.cons_append, assocGet]
    split_ifs at h ⊢ with hk
    · exact h
    · exact ih h

lemma assocGet_append_of_none {β : Type} (l₁ l₂ : List (Str × β)) (k : Str)
    (h : assocGet l₁ k = none) : assocGet (l₁ ++ l₂) k = assocGet l₂ k := by
  induction l₁ with
  | nil => rfl
  | cons a rest ih =>
    obtain ⟨ka, va⟩ := a
    rw [assocGet] at h
    rw [List.cons_append, assocGet]
    split_ifs at h ⊢ with hk
    · exact ih h

lemma rowGet_append_missing (row : Row) (key missing : Str)
    (h : getField row missing = none) :
    rowGet (row ++ [(missing, [])]) key [] = rowGet row key [] := by
  rw [rowGet, rowGet, getField, getField]
  cases hk : assocGet row key with
  | some v => rw [assocGet_append_of_some row _ key v hk]
  | none =>
    rw [assocGet_append_of_none row _ key hk, assocGet]
    split_ifs <;> rfl

/-- C8: the text projector renders the fields of a record in a fixed labeled
order (shown for the conditions kind), substituting the empty string for any
missing field: rendering a record with a field explicitly set to the empty
string equals rendering the record with the field absent, for every entity
kind; as a total function it never raises. -/
theorem row_to_text_missing_field :
    (∀ row : Row,
      row_to_text row (chars "conditions") =
        chars "Condition: " ++ rowGet row (chars "name") [] ++
        chars " | Symptoms: " ++ rowGet row (chars "symptoms") [] ++
        chars " | Treatment: " ++ rowGet row (chars "treatment") [] ++
        chars " | Prevention: " ++ rowGet row (chars "prevention") [] ∧
      (getField row (chars "name") = none → rowGet row (chars "name") [] = [])) ∧
    (∀ (row : Row) (dataType key : Str),
      dataType ∈ [chars "conditions", chars "drugs", chars "symptoms", chars "solutions"] →
      getField row key = none →
      row_to_text (row ++ [(key, [])]) dataType = row_to_text row dataType) := by
  constructor
  · intro row
    constructor
    · rw [row_to_text, if_pos rfl]
    · intro h
      simp [rowGet, h]
  · intro row dataType key hdt h
    have hfields : ∀ k : Str, rowGet (row ++ [(key, [])]) k [] = rowGet row k [] :=
      fun k => rowGet_append_missing row k key h
    simp only [List.mem_cons, List.not_mem_nil, or_false] at hdt
    rcases hdt with rfl | rfl | rfl | rfl <;>
      · simp only [row_to_text]
        split_ifs <;> simp_all

lemma getLast?_append_right (l₁ l₂ : Str) (h : l₂ ≠ []) :
    (l₁ ++ l₂).getLast? = l₂.getLast? := by
  rw [List.getLast?_append]
  cases hl : l₂.getLast? with
  | none => exact absurd (List.getLast?_eq_none_iff.mp hl) h
  | some a => rfl

lemma not_ends_with (x y : Str) (hx : x.getLast? ≠ y.getLast?) (hy : y ≠ []) :
    ¬ ∃ p, p ++ y = x := by
  rintro ⟨p, rfl⟩
  exact hx (getLast?_append_right p y hy)

lemma exists_append_left {x a b : Str} (h : ∃ p, p ++ x = a) : ∃ p, p ++ x = b ++ a := by
  obtain ⟨p, hp⟩ := h
  exact ⟨b ++ p, by rw [List.append_assoc, hp]⟩

/-- C10: every database formatter output ends with the footer line
"*Information from medical database*", while the external generation fallbacks
merely pass the provider text through (trimmed) or emit fixed messages ending
in a period — they never append the footer, so a fallback response carries the
marker only if the provider text (or the rendered error text) itself does. -/
theorem database_footer_marker :
    (∀ row : Row, ∃ p, p ++ footerLine = format_condition_response row) ∧
    (∀ row : Row, ∃ p, p ++ footerLine = format_drug_response row) ∧
    (∀ row : Row, ∃ p, p ++ footerLine = format_symptom_response row) ∧
    (∀ (gen : GenFn) (name : Str),
      (∀ t, gen (condPrompt name) = .ok t → ¬ ∃ p, p ++ footerLine = trimS t) →
      (∀ e, gen (condPrompt name) = .error e →
        ¬ ∃ p, p ++ footerLine = chars "Error retrieving condition information: " ++ e) →
      ¬ ∃ p, p ++ footerLine = generate_condition_info gen name) ∧
    (∀ (gen : GenFn) (name : Str),
      (∀ t, gen (drugPrompt name) = .ok t → ¬ ∃ p, p ++ footerLine = trimS t) →
      (∀ e, gen (drugPrompt name) = .error e →
        ¬ ∃ p, p ++ footerLine = chars "Error retrieving drug information: " ++ e) →
      ¬ ∃ p, p ++ footerLine = generate_drug_info gen name) ∧
    (∀ (gen : GenFn) (name : Str),
      (∀ t, gen (symptomPrompt name) = .ok t → ¬ ∃ p, p ++ footerLine = trimS t) →
      (∀ e, gen (symptomPrompt name) = .error e →
        ¬ ∃ p, p ++ footerLine = chars "Error retrieving symptom information: " ++ e) →
      ¬ ∃ p, p ++ footerLine = generate_symptom_info gen name) ∧
    (∀ (gen : GenFn) (query : Str),
      (∀ t, gen (generalPrompt query) = .ok t → ¬ ∃ p, p ++ footerLine = trimS t) →
      (∀ e, gen (generalPrompt query) = .error e →
        ¬ ∃ p, p ++ footerLine = chars "Error generating response: " ++ e) →
      ¬ ∃ p, p ++ footerLine = generalFallback gen query) := by
  refine ⟨?_, ?_, ?_, ?_, ?_, ?_, ?_⟩
  · intro row
    rw [format_condition_response]
    repeat apply exists_append_left
    exact ⟨chars "---\n", by decide⟩
  · intro row
    rw [format_drug_response]
    repeat apply exists_append_left
    exact ⟨chars "---\n", by decide⟩
  · intro row
    rw [format_symptom_response]
    repeat apply exists_append_left
    exact ⟨chars "---\n", by decide⟩
  · intro gen name hok herr
    cases hg : gen (condPrompt name) with
    | ok t =>
      simp only [generate_condition_info, hg]
      split_ifs with ht
      · refine not_ends_with _ _ ?_ (by decide)
        rw [getLast?_append_right (chars "Could not find information about " ++ name)
              (chars ".") (by simp [chars])]
        decide
      · exact hok t hg
    | error e =>
      simp only [generate_condition_info, hg]
      exact herr e hg
  · intro gen name hok herr
    cases hg : gen (drugPrompt name) with
    | ok t =>
      simp only [generate_drug_info, hg]
      split_ifs with ht
      · refine not_ends_with _ _ ?_ (by decide)
        rw [getLast?_append_right (chars "Could not find information about " ++ name)
              (chars ".") (by simp [chars])]
        decide
      · exact hok t hg
    | error e =>
      simp only [generate_drug_info, hg]
      exact herr e hg
  · intro gen name hok herr
    cases hg : gen (symptomPrompt name) with
    | ok t =>
      simp only [generate_symptom_info, hg]
      split_ifs with ht
      · refine not_ends_with _ _ ?_ (by decide)
        rw [getLast?_append_right (chars "Could not find information about " ++ name)
              (chars ".") (by simp [chars])]
        decide
      · exact hok t hg
    | error e =>
      simp only [generate_symptom_info, hg]
      exact herr e hg
  · intro gen query hok herr
    cases hg : gen (generalPrompt query) with
    | ok t =>
      simp only [generalFallback, hg]
      split_ifs with ht
      · exact not_ends_with _ _ (by decide) (by decide)
      · exact hok t hg
    | error e =>
      simp only [generalFallback, hg]
      exact herr e hg

/-- Witness for `database_footer_marker`: a provider answering "hello" yields
a condition fallback response not ending in the footer. -/
theorem database_footer_marker_witness :
    ¬ ∃ p, p ++ footerLine = generate_condition_info genW (chars "flu") := by
  apply database_footer_marker.2.2.2.1 genW (chars "flu")
  · intro t ht
    have hth : chars "hello" = t := by injection ht
    subst hth
    exact not_ends_with _ _ (by decide) (by decide)
  · intro e he
    exact absurd he (by simp [genW])

lemma dotP_cons (x y : ℚ) (xs ys : List ℚ) :
    dotP (x :: xs) (y :: ys) = x * y + dotP xs ys := by
  simp [dotP]

lemma dotP_comm : ∀ a b : List ℚ, dotP a b = dotP b a := by
  intro a
  induction a with
  | nil => intro b; simp [dotP]
  | cons x xs ih =>
    intro b
    cases b with
    | nil => simp [dotP]
    | cons y ys => rw [dotP_cons, dotP_cons, ih ys, mul_comm]

lemma dotP_map_mul_right (c : ℚ) : ∀ a b : List ℚ,
    dotP a (b.map (fun x => c * x)) = c * dotP a b := by
  intro a
  induction a with
  | nil => intro b; simp [dotP]
  | cons x xs ih =>
    intro b
    cases b with
    | nil => simp [dotP]
    | cons y ys =>
      rw [List.map_cons, dotP_cons, dotP_cons, ih ys]
      ring

lemma normSq_map_mul (c : ℚ) (b : List ℚ) :
    normSq (b.map (fun x => c * x)) = c ^ 2 * normSq b := by
  rw [normSq, dotP_map_mul_right, dotP_comm, dotP_map_mul_right, dotP_comm, ← normSq]
  ring

lemma normSq_nonneg (a : List ℚ) : 0 ≤ normSq a := by
  rw [normSq]
  induction a with
  | nil => simp [dotP]
  | cons x xs ih =>
    rw [dotP_cons]
    nlinarith [mul_self_nonneg x, ih]

/-- C9: the cosine score used by the ranker is symmetric and invariant under
positive scaling of an argument. -/
theorem cosineSim_symm_scale_invariant (a b : List ℚ) (c : ℚ)
    (hlen : a.length = b.length) (ha : normSq a ≠ 0) (hb : normSq b ≠ 0) (hc : 0 < c) :
    cosineSim a b = cosineSim b a ∧
    cosineSim a (b.map (fun x => c * x)) = cosineSim a b := by
  constructor
  · rw [cosineSim, cosineSim, dotP_comm, mul_comm]
  · rw [cosineSim, cosineSim, dotP_map_mul_right, normSq_map_mul]
    have hcR : (0 : ℝ) < (c : ℝ) := by exact_mod_cast hc
    have h1 : ((c ^ 2 * normSq b : ℚ) : ℝ) = (c : ℝ) ^ 2 * (normSq b : ℝ) := by
      push_cast
      ring
    rw [h1, Real.sqrt_mul (by positivity), Real.sqrt_sq hcR.le]
    push_cast
    rw [show Real.sqrt (normSq a) * ((c : ℝ) * Real.sqrt (normSq b)) =
          (c : ℝ) * (Real.sqrt (normSq a) * Real.sqrt (normSq b)) from by ring]
    rw [mul_div_mul_left _ _ (ne_of_gt hcR)]

/-- Witness for `cosineSim_symm_scale_invariant` on one-dimensional vectors. -/
theorem cosineSim_symm_scale_invariant_witness :
    cosineSim [1] [2] = cosineSim [2] [1] ∧
    cosineSim [1] (List.map (fun x => (3 : ℚ) * x) [2]) = cosineSim [1] [2] :=
  cosineSim_symm_scale_invariant [1] [2] 3 rfl
    (by norm_num [normSq, dotP, List.zipWith])
    (by norm_num [normSq, dotP, List.zipWith])
    (by norm_num)

lemma sq_le_sq_iff_nonneg {x y : ℝ} (hx : 0 ≤ x) (hy : 0 ≤ y) :
    x * x ≤ y * y ↔ x ≤ y := by
  constructor
  · intro h; nlinarith
  · intro h; nlinarith

lemma cosGE_iff (q a b : List ℚ) (hq : 0 < normSq q) (ha : 0 < normSq a)
    (hb : 0 < normSq b) :
    cosGE q a b = true ↔ cosineSim q b ≤ cosineSim q a := by
  have hqR : (0 : ℝ) < (normSq q : ℝ) := by exact_mod_cast hq
  have haR : (0 : ℝ) < (normSq a : ℝ) := by exact_mod_cast ha
  have hbR : (0 : ℝ) < (normSq b : ℝ) := by exact_mod_cast hb
  have hsq : 0 < Real.sqrt (normSq q) := Real.sqrt_pos.mpr hqR
  have hsa : 0 < Real.sqrt (normSq a) := Real.sqrt_pos.mpr haR
  have hsb : 0 < Real.sqrt (normSq b) := Real.sqrt_pos.mpr hbR
  have hsa2 : Real.sqrt (normSq a) * Real.sqrt (normSq a) = (normSq a : ℝ) :=
    Real.mul_self_sqrt haR.le
  have hsb2 : Real.sqrt (normSq b) * Real.sqrt (normSq b) = (normSq b : ℝ) :=
    Real.mul_self_sqrt hbR.le
  have eb : (dotP q b : ℝ) * Real.sqrt (normSq a) * ((dotP q b : ℝ) * Real.sqrt (normSq a)) =
      (dotP q b : ℝ) * (dotP q b : ℝ) * (normSq a : ℝ) := by
    rw [show (dotP q b : ℝ) * Real.sqrt (normSq a) * ((dotP q b : ℝ) * Real.sqrt (normSq a)) =
        (dotP q b : ℝ) * (dotP q b : ℝ) * (Real.sqrt (normSq a) * Real.sqrt (normSq a)) from by
          ring, hsa2]
  have ea : (dotP q a : ℝ) * Real.sqrt (normSq b) * ((dotP q a : ℝ) * Real.sqrt (normSq b)) =
      (dotP q a : ℝ) * (dotP q a : ℝ) * (normSq b : ℝ) := by
    rw [show (dotP q a : ℝ) * Real.sqrt (normSq b) * ((dotP q a : ℝ) * Real.sqrt (normSq b)) =
        (dotP q a : ℝ) * (dotP q a : ℝ) * (Real.sqrt (normSq b) * Real.sqrt (normSq b)) from by
          ring, hsb2]
  have ena : -((dotP q a : ℝ) * Real.sqrt (normSq b)) *
      -((dotP q a : ℝ) * Real.sqrt (normSq b)) =
      (dotP q a : ℝ) * (dotP q a : ℝ) * (normSq b : ℝ) := by
    rw [show -((dotP q a : ℝ) * Real.sqrt (normSq b)) *
        -((dotP q a : ℝ) * Real.sqrt (normSq b)) =
        (dotP q a : ℝ) * (dotP q a : ℝ) * (Real.sqrt (normSq b) * Real.sqrt (normSq b)) from by
          ring, hsb2]
  have enb : -((dotP q b : ℝ) * Real.sqrt (normSq a)) *
      -((dotP q b : ℝ) * Real.sqrt (normSq a)) =
      (dotP q b : ℝ) * (dotP q b : ℝ) * (normSq a : ℝ) := by
    rw [show -((dotP q b : ℝ) * Real.sqrt (normSq a)) *
        -((dotP q b : ℝ) * Real.sqrt (normSq a)) =
        (dotP q b : ℝ) * (dotP q b : ℝ) * (Real.sqrt (normSq a) * Real.sqrt (normSq a)) from by
          ring, hsa2]
  have hiff : cosineSim q b ≤ cosineSim q a ↔
      (dotP q b : ℝ) * Real.sqrt (normSq a) ≤ (dotP q a : ℝ) * Real.sqrt (normSq b) := by
    rw [cosineSim, cosineSim, div_le_div_iff (by positivity) (by positivity),
      show (dotP q b : ℝ) * (Real.sqrt (normSq q) * Real.sqrt (normSq a)) =
        Real.sqrt (normSq q) * ((dotP q b : ℝ) * Real.sqrt (normSq a)) from by ring,
      show (dotP q a : ℝ) * (Real.sqrt (normSq q) * Real.sqrt (normSq b)) =
        Real.sqrt (normSq q) * ((dotP q a : ℝ) * Real.sqrt (normSq b)) from by ring,
      mul_le_mul_left hsq]
  rw [hiff]
  simp only [cosGE]
  split_ifs with h1 h2 h2'
  · rw [decide_eq_true_eq]
    have h1R : (0 : ℝ) ≤ (dotP q a : ℝ) := by exact_mod_cast h1
    have h2R : (0 : ℝ) ≤ (dotP q b : ℝ) := by exact_mod_cast h2
    have key := sq_le_sq_iff_nonneg (mul_nonneg h2R hsa.le) (mul_nonneg h1R hsb.le)
    constructor
    · intro hqq
      have hR : (dotP q b : ℝ) * (dotP q b : ℝ) * (normSq a : ℝ) ≤
          (dotP q a : ℝ) * (dotP q a : ℝ) * (normSq b : ℝ) := by exact_mod_cast hqq
      refine key.mp ?_
      rw [ea, eb]
      exact hR
    · intro hle
      have hsqle := key.mpr hle
      rw [ea, eb] at hsqle
      exact_mod_cast hsqle
  · constructor
    · intro _
      have hdb : (dotP q b : ℝ) < 0 := by exact_mod_cast not_le.mp h2
      have h1R : (0 : ℝ) ≤ (dotP q a : ℝ) := by exact_mod_cast h1
      nlinarith [mul_nonneg h1R hsb.le, mul_neg_of_neg_of_pos hdb hsa]
    · intro _; rfl
  · constructor
    · intro h; exact absurd h (by simp)
    · intro hle
      have hda : (dotP q a : ℝ) < 0 := by exact_mod_cast not_le.mp h1
      have h2R : (0 : ℝ) ≤ (dotP q b : ℝ) := by exact_mod_cast h2'
      nlinarith [mul_nonneg h2R hsa.le, mul_neg_of_neg_of_pos hda hsb]
  · rw [decide_eq_true_eq]
    have hda : (dotP q a : ℝ) < 0 := by exact_mod_cast not_le.mp h1
    have hdb : (dotP q b : ℝ) < 0 := by exact_mod_cast not_le.mp h2'
    have hna : (0 : ℝ) ≤ -((dotP q a : ℝ) * Real.sqrt (normSq b)) :=
      neg_nonneg.mpr (mul_neg_of_neg_of_pos hda hsb).le
    have hnb : (0 : ℝ) ≤ -((dotP q b : ℝ) * Real.sqrt (normSq a)) :=
      neg_nonneg.mpr (mul_neg_of_neg_of_pos hdb hsa).le
    have key := sq_le_sq_iff_nonneg hna hnb
    constructor
    · intro hqq
      have hR : (dotP q a : ℝ) * (dotP q a : ℝ) * (normSq b : ℝ) ≤
          (dotP q b : ℝ) * (dotP q b : ℝ) * (normSq a : ℝ) := by exact_mod_cast hqq
      have hneg := key.mp (by rw [ena, enb]; exact hR)
      linarith [hneg]
    · intro hle
      have hneg := key.mpr (by linarith)
      rw [ena, enb] at hneg
      exact_mod_cast hneg

lemma orderedInsert_congr {α : Type} {r s : α → α → Prop} [DecidableRel r] [DecidableRel s]
    (x : α) (l : List α) (h : ∀ b ∈ l, (r x b ↔ s x b)) :
    l.orderedInsert r x = l.orderedInsert s x := by
  induction l with
  | nil => rfl
  | cons b bs ih =>
    simp only [List.orderedInsert]
    rw [ih (fun c hc => h c (List.mem_cons_of_mem _ hc))]
    exact if_congr (h b (List.mem_cons_self _ _)) rfl rfl

lemma insertionSort_congr {α : Type} {r s : α → α → Prop} [DecidableRel r] [DecidableRel s]
    (l : List α) (h : ∀ a ∈ l, ∀ b ∈ l, (r a b ↔ s a b)) :
    List.insertionSort r l = List.insertionSort s l := by
  induction l with
  | nil => rfl
  | cons x xs ih =>
    simp only [List.insertionSort]
    rw [ih (fun a ha b hb => h a (List.mem_cons_of_mem _ ha) b (List.mem_cons_of_mem _ hb))]
    apply orderedInsert_congr
    intro b hb
    have hbmem : b ∈ xs := (List.mem_insertionSort s).mp hb
    exact h x (List.mem_cons_self _ _) b (List.mem_cons_of_mem _ hbmem)

/-- C4: under the well-definedness preconditions (uniform dimensionality and
positive squared norms, so every cosine is defined), `semantic_search` returns
exactly the first `k` entries of the stable descending sort of the index by
real cosine similarity against the query embedding (`rankSpec` — ties keep
original index order because insertion sort is stable), that reference ranking
is sorted by non-increasing cosine similarity, and at most `k` entries are
returned (`min k` of the index size). -/
theorem semantic_search_sorted_topk (embed : EmbedFn) (query : Str)
    (index : List IndexEntry) (k : Nat) (qv : List ℚ)
    (hemb : embed query = .ok qv)
    (hq : 0 < normSq qv)
    (hdim : ∀ e ∈ index, e.embedding.length = qv.length)
    (hpos : ∀ e ∈ index, 0 < normSq e.embedding) :
    semantic_search embed query index k = (rankSpec qv index).take k ∧
    (rankSpec qv index).Pairwise
      (fun x y => cosineSim qv y.embedding ≤ cosineSim qv x.embedding) ∧
    (∀ x y : IndexEntry, List.Sublist [x, y] index →
      cosineSim qv x.embedding = cosineSim qv y.embedding →
      List.Sublist [x, y] (rankSpec qv index)) ∧
    (semantic_search embed query index k).length = min k index.length := by
  have hsort : List.insertionSort
      (fun x y => cosGE qv x.embedding y.embedding = true) index = rankSpec qv index := by
    rw [rankSpec]
    exact insertionSort_congr index
      (fun x hx y hy => cosGE_iff qv x.embedding y.embedding hq (hpos x hx) (hpos y hy))
  have hmain : semantic_search embed query index k = (rankSpec qv index).take k := by
    by_cases hind : index = []
    · subst hind
      simp [semantic_search, rankSpec]
    · rw [semantic_search, if_neg hind, hemb]
      show List.take k
          (List.insertionSort (fun a b => cosGE qv a.embedding b.embedding = true) index) =
        List.take k (rankSpec qv index)
      rw [hsort]
  refine ⟨hmain, ?_, ?_, ?_⟩
  · have htot : IsTotal IndexEntry
        (fun x y => cosineSim qv y.embedding ≤ cosineSim qv x.embedding) :=
      ⟨fun x y => le_total _ _⟩
    have htrans : IsTrans IndexEntry
        (fun x y => cosineSim qv y.embedding ≤ cosineSim qv x.embedding) :=
      ⟨fun x y z hxy hyz => le_trans hyz hxy⟩
    rw [rankSpec]
    exact @List.sorted_insertionSort IndexEntry
      (fun x y => cosineSim qv y.embedding ≤ cosineSim qv x.embedding)
      (fun _ _ => Classical.propDecidable _) htot htrans index
  · intro x y hxy hcos
    rw [rankSpec]
    exact List.sublist_insertionSort (List.pairwise_pair.mpr hcos.ge) hxy
  · rw [hmain, List.length_take, rankSpec, (List.perm_insertionSort _ index).length_eq]

/-- Witness for `semantic_search_sorted_topk` on a concrete two-entry index. -/
theorem semantic_search_sorted_topk_witness :
    semantic_search embedW (chars "q") [entryW1, entryW2] 5 =
      (rankSpec [1, 0] [entryW1, entryW2]).take 5 :=
  (semantic_search_sorted_topk embedW (chars "q") [entryW1, entryW2] 5 [1, 0] rfl
    (by norm_num [normSq, dotP, List.zipWith])
    (by
      intro e he
      rcases List.mem_cons.mp he with rfl | he'
      · rfl
      · rcases List.mem_cons.mp he' with rfl | he''
        · rfl
        · exact absurd he'' (List.not_mem_nil e))
    (by
      intro e he
      rcases List.mem_cons.mp he with rfl | he'
      · norm_num [entryW1, normSq, dotP, List.zipWith]
      · rcases List.mem_cons.mp he' with rfl | he''
        · norm_num [entryW2, normSq, dotP, List.zipWith]
        · exact absurd he'' (List.not_mem_nil e))).1

lemma buildAll_error_of_mem (embed : EmbedFn) :
    ∀ (l : List (Str × Row)) (k : Str) (r : Row),
      (k, r) ∈ l → row_to_text r k ≠ [] → (∀ v, embed (row_to_text r k) ≠ .ok v) →
      ∃ e, buildAll embed l = .error e := by
  intro l
  induction l with
  | nil => intro k r hmem _ _; exact absurd hmem (List.not_mem_nil _)
  | cons p rest ih =>
    intro k r hmem htext hfail
    obtain ⟨pk, pr⟩ := p
    simp only [buildAll]
    rcases List.mem_cons.mp hmem with heq | hmem'
    · obtain ⟨rfl, rfl⟩ : k = pk ∧ r = pr := Prod.mk.injEq .. ▸ heq
      rw [if_neg htext]
      cases hemb : embed (row_to_text r k) with
      | error e => exact ⟨e, rfl⟩
      | ok v => exact absurd hemb (hfail v)
    · obtain ⟨e, he⟩ := ih k r hmem' htext hfail
      by_cases ht : row_to_text pr pk = []
      · rw [if_pos ht]
        exact ⟨e, he⟩
      · rw [if_neg ht]
        cases hemb : embed (row_to_text pr pk) with
        | error e' => exact ⟨e', rfl⟩
        | ok v => exact ⟨e, by rw [he]; rfl⟩

/-- C1 (amended): a provider failure on ANY document aborts the whole build:
the `try` wraps the entire loop (pipeline.py 76-94), so the exception
propagates out of the loop, is logged once, and the empty index is returned —
previously embedded documents are discarded and the remaining ones are never
embedded. -/
theorem build_semantic_index_aborts_on_failure (embed : EmbedFn)
    (data : List (Str × List Row)) (kind : Str) (rows : List Row) (row : Row)
    (hmem : (kind, rows) ∈ data) (hrow : row ∈ rows)
    (htext : row_to_text row kind ≠ [])
    (hfail : ∀ v, embed (row_to_text row kind) ≠ .ok v) :
    build_semantic_index embed data = [] := by
  have hmem' : (kind, row) ∈ data.flatMap (fun p => p.2.map (fun r => (p.1, r))) := by
    rw [List.mem_flatMap]
    exact ⟨(kind, rows), hmem, List.mem_map.mpr ⟨row, hrow, rfl⟩⟩
  obtain ⟨e, he⟩ := buildAll_error_of_mem embed _ kind row hmem' htext hfail
  rw [build_semantic_index, he]

/-- Witness for `build_semantic_index_aborts_on_failure` on the concrete
two-row corpus. -/
theorem build_semantic_index_aborts_on_failure_witness :
    build_semantic_index embedC1 dataC1 = [] :=
  build_semantic_index_aborts_on_failure embedC1 dataC1 (chars "conditions")
    [rowA, rowB] rowA (by decide) (by decide) (by decide)
    (by intro v hv; injection hv)

/-- C1 counterexample: on a two-document corpus whose embedding provider fails
on the first document but succeeds on the second, the build returns the EMPTY
index — the healthy second document does not appear in the built index, so
failures are not handled per-document. -/
theorem build_semantic_index_not_per_document :
    embedC1 (row_to_text rowA (chars "conditions")) = .error (chars "rate limit") ∧
    embedC1 (row_to_text rowB (chars "conditions")) = .ok [1] ∧
    build_semantic_index embedC1 dataC1 = [] :=
  ⟨rfl, rfl, rfl⟩

set_option maxRecDepth 8000 in
/-- C2 counterexample: a general-type query whose only index entry scores
cosine 0 (≤ the claimed 0.3 threshold) still gets the LOCAL database response,
not the external generation fallback — no threshold is consulted
(pipeline.py 322-334 uses `results[0]` whenever `results` is nonempty). -/
theorem low_score_local_result_used :
    cosineSim [1, 0] entryC2.embedding = 0 ∧
    (0 : ℝ) ≤ 0.3 ∧
    semantic_search embedC2 (chars "hello") [entryC2] 3 = [entryC2] ∧
    generate_smart_response embedC2 genC2 [] [entryC2] (chars "hello") =
      format_condition_response [] ∧
    format_condition_response [] ≠ generalFallback genC2 (chars "hello") := by
  refine ⟨?_, by norm_num, rfl, by decide, by decide⟩
  rw [show entryC2.embedding = [0, 1] from rfl]
  rw [cosineSim]
  norm_num [dotP, List.zipWith]

/-- C2 (amended): on the general path no similarity threshold exists: the
response is determined solely by whether the search result list is empty and
by the top entry's kind — a nonempty result is used regardless of its score
(formatted for the three known kinds, with the external fallback otherwise),
and the external generation path is taken exactly when the search returns
nothing. -/
theorem generate_smart_response_no_threshold (embed : EmbedFn) (gen : GenFn)
    (data : List (Str × List Row)) (index : List IndexEntry) (query : Str)
    (hq : detect_query_type query = chars "general") :
    (semantic_search embed query index 3 = [] →
      generate_smart_response embed gen data index query = generalFallback gen query) ∧
    (∀ best rest, semantic_search embed query index 3 = best :: rest →
      generate_smart_response embed gen data index query =
        (if best.kind = chars "conditions" then format_condition_response best.data
         else if best.kind = chars "drugs" then format_drug_response best.data
         else if best.kind = chars "symptoms" then format_symptom_response best.data
         else generalFallback gen query)) := by
  constructor
  · intro hs
    simp only [generate_smart_response, hq]
    rw [if_neg (by decide), if_neg (by decide), if_neg (by decide), hs]
  · intro best rest hs
    simp only [generate_smart_response, hq]
    rw [if_neg (by decide), if_neg (by decide), if_neg (by decide), hs]

/-- Witness for `generate_smart_response_no_threshold`, exercising both the
empty-result branch and the used-result branch. -/
theorem generate_smart_response_no_threshold_witness :
    generate_smart_response embedC2 genC2 [] [] (chars "hello") =
      generalFallback genC2 (chars "hello") ∧
    generate_smart_response embedC2 genC2 [] [entryC2] (chars "hello") =
      format_condition_response [] :=
  ⟨(generate_smart_response_no_threshold embedC2 genC2 [] [] (chars "hello")
      (by decide)).1 rfl,
   (generate_smart_response_no_threshold embedC2 genC2 [] [entryC2] (chars "hello")
      (by decide)).2 entryC2 [] rfl⟩

/-- Witness for `row_to_text_missing_field`: adding an explicitly empty
`symptoms` field to a row that lacked it does not change the projection. -/
theorem row_to_text_missing_field_witness :
    row_to_text ([(chars "name", chars "Flu")] ++ [(chars "symptoms", [])])
        (chars "conditions") =
      row_to_text [(chars "name", chars "Flu")] (chars "conditions") :=
  row_to_text_missing_field.2 [(chars "name", chars "Flu")] (chars "conditions")
    (chars "symptoms") (by decide) (by decide)
